import Mathlib

/-!
Verification of the scenario-generation and metrics core of
`src/streamlit_app.py` (climate-impact dashboard).

The Python code is shallowly embedded: floating-point series become lists of
rationals (`List ℚ`), a raised exception that is caught by the enclosing
broad `except` is modelled as `Option.none`, and the Python dict returned by
`generate_climate_scenarios` is modelled as an association list
`List (String × List ℚ)` whose order is the insertion order of the loop that
builds it (Python dicts preserve insertion order).
-/

/-- A value occurring in a scenario list of the parsed collaborator payload:
either a number (modelled as a rational) or a non-numeric element such as a
string, on which Python's `min(max(0, value), 6)` raises `TypeError`. -/
inductive PyVal where
  | num (q : ℚ)
  | nonNum (s : String)
deriving DecidableEq

/-- A value attached to a key of the parsed payload dictionary: either a
Python list of elements or something that is not a list (line 72's
`isinstance(data, list)` check rejects the latter). -/
inductive PyEntry where
  | list (xs : List PyVal)
  | nonList
deriving DecidableEq

/-- The outcome of `ast.literal_eval` on the collaborator's text (line 59)
combined with the `isinstance(scenarios, dict)` check (line 60):
the parse raised, the parse produced a non-dict value, or a dictionary given
by its entries in insertion order. -/
inductive Resp where
  | parseFailure
  | nonDict
  | dict (entries : List (String × PyEntry))
deriving DecidableEq

/-- Python's substring test `needle in hay` (case-sensitive), used at
line 67 as `correct_name in key`. -/
def strContains (hay needle : String) : Bool :=
  hay.toList.tails.any (fun t => needle.toList.isPrefixOf t)

/-- The function `normalize_data` (lines 19-23): pad a short series by repeating its last
element, or trim a long one to the first `target_length` elements. On the
empty series with positive target, `data[-1]` raises `IndexError`, modelled
as `none`. -/
def normalize_data {α : Type} (data : List α) (target_length : ℕ) : Option (List α) :=
  if data.length < target_length then
    match data.getLast? with
    | none => none
    | some x => some (data ++ List.replicate (target_length - data.length) x)
  else
    some (data.take target_length)

/-- The canonical scenario names in canonical order (line 64). -/
def correct_order : List String :=
  ["Business as Usual", "Cut Emissions Aggressively", "Emissions Removal",
   "Climate Interventions"]

/-- Line 67: `next((key for key in scenarios.keys() if correct_name in key), None)` —
the first candidate key containing the canonical name as a (case-sensitive)
substring. -/
def matchScenarioKey (keys : List String) (name : String) : Option String :=
  keys.find? (fun k => strContains k name)

/-- Lines 67-71: resolve a canonical name against the payload's keys and
fetch the matched key's value; `none` models the `Missing scenario`
`ValueError` of lines 68-69. -/
def lookupEntry (entries : List (String × PyEntry)) (name : String) : Option PyEntry :=
  match matchScenarioKey (entries.map Prod.fst) name with
  | none => none
  | some k =>
      match entries.find? (fun e => e.1 == k) with
      | none => none
      | some e => some e.2

/-- One element of line 77's comprehension `min(max(0, value), 6)`:
clamps a number to `[0, 6]`; a non-numeric element raises `TypeError`
(modelled `none`). -/
def clamp_value : PyVal → Option ℚ
  | PyVal.num q => some (min (max 0 q) 6)
  | PyVal.nonNum _ => none

/-- Build a list from per-element partial results, failing if any element
fails — the Option analogue of a Python loop/comprehension in which an
iteration may raise. -/
def mapOption {α β : Type} (f : α → Option β) : List α → Option (List β)
  | [] => some []
  | a :: l =>
      match f a with
      | none => none
      | some b => (mapOption f l).map (fun r => b :: r)

/-- Line 77: the clamping comprehension over a whole series. -/
def clampRange (xs : List PyVal) : Option (List ℚ) :=
  mapOption clamp_value xs

/-- Lines 66-78, body of the per-scenario loop: resolve the key, require a
list value, normalize to length 100, clamp every element to `[0, 6]`. -/
def processScenario (entries : List (String × PyEntry)) (name : String) :
    Option (List ℚ) :=
  match lookupEntry entries name with
  | none => none
  | some PyEntry.nonList => none
  | some (PyEntry.list xs) =>
      match normalize_data xs 100 with
      | none => none
      | some nd => clampRange nd

/-- Lines 63-78: the loop over `correct_order` that builds
`normalized_scenarios` keyed by the canonical names, in canonical order. -/
def normalizeAll (entries : List (String × PyEntry)) :
    Option (List (String × List ℚ)) :=
  mapOption (fun name => (processScenario entries name).map (fun d => (name, d)))
    correct_order

/-- Python dict lookup `m[k]` on the association-list model; `none` models
`KeyError`. -/
def dictGet (m : List (String × List ℚ)) (k : String) : Option (List ℚ) :=
  match m.find? (fun e => e.1 == k) with
  | none => none
  | some e => some e.2

/-- One iteration of the loop at lines 81-83:
`if normalized_scenarios[a][-1] <= normalized_scenarios[b][-1]: raise`.
`some ()` means the pair passed; `none` models the raised `ValueError`
(or a `KeyError`/`IndexError` on a malformed set). -/
def pairOk (m : List (String × List ℚ)) (a b : String) : Option Unit :=
  match dictGet m a, dictGet m b with
  | some xa, some xb =>
      match xa.getLast?, xb.getLast? with
      | some la, some lb => if la ≤ lb then none else some ()
      | _, _ => none
  | _, _ => none

/-- Lines 80-85: the terminal-value ordering pass. The code only checks the
final values and raises on a violation; on success the set is returned
unchanged (no rescaling happens in this implementation). -/
def enforceDescendingOrder (m : List (String × List ℚ)) :
    Option (List (String × List ℚ)) :=
  match pairOk m "Business as Usual" "Cut Emissions Aggressively" with
  | none => none
  | some _ =>
      match pairOk m "Cut Emissions Aggressively" "Emissions Removal" with
      | none => none
      | some _ =>
          match pairOk m "Emissions Removal" "Climate Interventions" with
          | none => none
          | some _ => some m

/-- The function `generate_climate_scenarios` (lines 58-89), from the point where the
collaborator's response text is parsed: validate the dict shape, build the
normalized set, check terminal ordering. Every raised exception is caught by
the broad `except` at line 86 and turned into `return None`. -/
def generate_climate_scenarios (resp : Resp) : Option (List (String × List ℚ)) :=
  match resp with
  | Resp.parseFailure => none
  | Resp.nonDict => none
  | Resp.dict entries =>
      if entries.length = 4 then
        match normalizeAll entries with
        | none => none
        | some normalized => enforceDescendingOrder normalized
      else none

/-- Numpy's `np.linspace a b n` over rationals: `n` evenly spaced points from `a`
to `b` (line 93: `np.linspace(0, 100, 100)`). -/
def linspace (a b : ℚ) (n : ℕ) : List ℚ :=
  (List.range n).map (fun i : ℕ => a + (b - a) * (i : ℚ) / ((n : ℚ) - 1))

/-- Numpy's `np.trapz y x`: the composite trapezoid rule
`Σ (y[i] + y[i+1]) / 2 * (x[i+1] - x[i])`. -/
def trapz : List ℚ → List ℚ → ℚ
  | y0 :: y1 :: ys, x0 :: x1 :: xs =>
      (y0 + y1) / 2 * (x1 - x0) + trapz (y1 :: ys) (x1 :: xs)
  | _, _ => 0

/-- Lines 149-159: a market size is
`max(0, np.trapz(upper - lower, np.linspace(0, 100, 100)) * price * 1e9)`. -/
def marketSize (upper lower : List ℚ) (price : ℚ) : ℚ :=
  max 0 (trapz (List.zipWith (fun a b => a - b) upper lower) (linspace 0 100 100)
    * price * 1000000000)

/-- A scenario element is numeric. -/
def isNum : PyVal → Bool
  | PyVal.num _ => true
  | PyVal.nonNum _ => false

/-- Two scenario names are adjacent in the canonical order of line 64. -/
def canonicalAdjacent (a b : String) : Prop :=
  (a = "Business as Usual" ∧ b = "Cut Emissions Aggressively") ∨
  (a = "Cut Emissions Aggressively" ∧ b = "Emissions Removal") ∨
  (a = "Emissions Removal" ∧ b = "Climate Interventions")

/-- A canonical scenario name is structurally unusable in the payload: no
key resolves to it, its value is not a list, or its value is a list that the
per-scenario pass cannot turn into numbers (empty, or containing a
non-numeric element among the elements that survive length normalization —
only the first 100 elements are ever consulted, by line 23's truncation). -/
def badScenario (entries : List (String × PyEntry)) (name : String) : Prop :=
  lookupEntry entries name = none ∨
  lookupEntry entries name = some PyEntry.nonList ∨
  ∃ xs, lookupEntry entries name = some (PyEntry.list xs) ∧
    (xs = [] ∨ ∃ v ∈ xs.take 100, isNum v = false)

/-- A structurally invalid collaborator payload: unparsable text, a non-dict
value, a dict of the wrong size, or a dict in which some canonical scenario
is unusable. -/
def invalidResp (resp : Resp) : Prop :=
  resp = Resp.parseFailure ∨ resp = Resp.nonDict ∨
  ∃ entries, resp = Resp.dict entries ∧
    (entries.length ≠ 4 ∨ ∃ name ∈ correct_order, badScenario entries name)

/-- A well-formed payload with terminal values 4 > 3 > 2 > 1. -/
def goodEntries : List (String × PyEntry) :=
  [("Business as Usual", PyEntry.list [PyVal.num 4]),
   ("Cut Emissions Aggressively", PyEntry.list [PyVal.num 3]),
   ("Emissions Removal", PyEntry.list [PyVal.num 2]),
   ("Climate Interventions", PyEntry.list [PyVal.num 1])]

/-- The scenario set the pipeline produces from `goodEntries`. -/
def goodSet : List (String × List ℚ) :=
  [("Business as Usual", List.replicate 100 (4 : ℚ)),
   ("Cut Emissions Aggressively", List.replicate 100 (3 : ℚ)),
   ("Emissions Removal", List.replicate 100 (2 : ℚ)),
   ("Climate Interventions", List.replicate 100 (1 : ℚ))]

/-- A payload whose keys decorate the canonical names with numbering and an
abbreviation; terminal values 5 > 3 > 2 > 1. -/
def decoratedEntries : List (String × PyEntry) :=
  [("1. Business as Usual (BAU)", PyEntry.list [PyVal.num 5]),
   ("2. Cut Emissions Aggressively", PyEntry.list [PyVal.num 3]),
   ("3. Emissions Removal", PyEntry.list [PyVal.num 2]),
   ("4. Climate Interventions", PyEntry.list [PyVal.num 1])]

/-- The scenario set the pipeline produces from `decoratedEntries`. -/
def decoratedSet : List (String × List ℚ) :=
  [("Business as Usual", List.replicate 100 (5 : ℚ)),
   ("Cut Emissions Aggressively", List.replicate 100 (3 : ℚ)),
   ("Emissions Removal", List.replicate 100 (2 : ℚ)),
   ("Climate Interventions", List.replicate 100 (1 : ℚ))]

/-- A payload whose terminal values 1 < 2 < 3 < 4 violate the intended
descending terminal order. -/
def ascEntries : List (String × PyEntry) :=
  [("Business as Usual", PyEntry.list [PyVal.num 1]),
   ("Cut Emissions Aggressively", PyEntry.list [PyVal.num 2]),
   ("Emissions Removal", PyEntry.list [PyVal.num 3]),
   ("Climate Interventions", PyEntry.list [PyVal.num 4])]

/-- The normalized set built from `ascEntries` before the ordering check. -/
def ascNormalized : List (String × List ℚ) :=
  [("Business as Usual", List.replicate 100 (1 : ℚ)),
   ("Cut Emissions Aggressively", List.replicate 100 (2 : ℚ)),
   ("Emissions Removal", List.replicate 100 (3 : ℚ)),
   ("Climate Interventions", List.replicate 100 (4 : ℚ))]

/-- A payload in which all four scenarios share the terminal value 2, so
the first adjacent pair already violates the strict ordering check. -/
def eqEntries : List (String × PyEntry) :=
  [("Business as Usual", PyEntry.list [PyVal.num 2]),
   ("Cut Emissions Aggressively", PyEntry.list [PyVal.num 2]),
   ("Emissions Removal", PyEntry.list [PyVal.num 2]),
   ("Climate Interventions", PyEntry.list [PyVal.num 2])]

/-- The normalized set built from `eqEntries` before the ordering check. -/
def eqNormalized : List (String × List ℚ) :=
  [("Business as Usual", List.replicate 100 (2 : ℚ)),
   ("Cut Emissions Aggressively", List.replicate 100 (2 : ℚ)),
   ("Emissions Removal", List.replicate 100 (2 : ℚ)),
   ("Climate Interventions", List.replicate 100 (2 : ℚ))]

/-- A payload whose Business-as-Usual series starts at 0 and ends at 4, so
it crosses the other scenario curves mid-series while the terminal values
4 > 3 > 2 > 1 still descend. -/
def crossEntries : List (String × PyEntry) :=
  [("Business as Usual", PyEntry.list [PyVal.num 0, PyVal.num 4]),
   ("Cut Emissions Aggressively", PyEntry.list [PyVal.num 3]),
   ("Emissions Removal", PyEntry.list [PyVal.num 2]),
   ("Climate Interventions", PyEntry.list [PyVal.num 1])]

/-- The scenario set the pipeline produces from `crossEntries`. -/
def crossSet : List (String × List ℚ) :=
  [("Business as Usual", (0 : ℚ) :: List.replicate 99 (4 : ℚ)),
   ("Cut Emissions Aggressively", List.replicate 100 (3 : ℚ)),
   ("Emissions Removal", List.replicate 100 (2 : ℚ)),
   ("Climate Interventions", List.replicate 100 (1 : ℚ))]

/-- A payload with terminal values 5 > 3 > 2 > 0. -/
def steppedEntries : List (String × PyEntry) :=
  [("Business as Usual", PyEntry.list [PyVal.num 5]),
   ("Cut Emissions Aggressively", PyEntry.list [PyVal.num 3]),
   ("Emissions Removal", PyEntry.list [PyVal.num 2]),
   ("Climate Interventions", PyEntry.list [PyVal.num 0])]

/-- The scenario set the pipeline produces from `steppedEntries`. -/
def steppedSet : List (String × List ℚ) :=
  [("Business as Usual", List.replicate 100 (5 : ℚ)),
   ("Cut Emissions Aggressively", List.replicate 100 (3 : ℚ)),
   ("Emissions Removal", List.replicate 100 (2 : ℚ)),
   ("Climate Interventions", List.replicate 100 (0 : ℚ))]

/-- A payload whose Business-as-Usual list carries a non-numeric element at
index 100, just past the truncation point of `normalize_data`. -/
def truncEntries : List (String × PyEntry) :=
  [("Business as Usual",
      PyEntry.list (List.replicate 100 (PyVal.num 4) ++ [PyVal.nonNum "N/A"])),
   ("Cut Emissions Aggressively", PyEntry.list [PyVal.num 3]),
   ("Emissions Removal", PyEntry.list [PyVal.num 2]),
   ("Climate Interventions", PyEntry.list [PyVal.num 1])]

/-- The scenario set the pipeline produces from `truncEntries`. -/
def truncSet : List (String × List ℚ) :=
  [("Business as Usual", List.replicate 100 (4 : ℚ)),
   ("Cut Emissions Aggressively", List.replicate 100 (3 : ℚ)),
   ("Emissions Removal", List.replicate 100 (2 : ℚ)),
   ("Climate Interventions", List.replicate 100 (1 : ℚ))]

/-- A payload whose Business-as-Usual key differs from the canonical name
only in letter case. -/
def lowercaseEntries : List (String × PyEntry) :=
  [("business as usual", PyEntry.list [PyVal.num 4]),
   ("Cut Emissions Aggressively", PyEntry.list [PyVal.num 3]),
   ("Emissions Removal", PyEntry.list [PyVal.num 2]),
   ("Climate Interventions", PyEntry.list [PyVal.num 1])]

/-- A scenario set that already satisfies the strict terminal ordering. -/
def orderedSet : List (String × List ℚ) :=
  [("Business as Usual", [(3 : ℚ)]),
   ("Cut Emissions Aggressively", [(2 : ℚ)]),
   ("Emissions Removal", [(1 : ℚ)]),
   ("Climate Interventions", [(0 : ℚ)])]

/-! Helper lemmas about the embedding. -/

theorem mapOption_forall2 {α β : Type} (f : α → Option β) :
    ∀ (l : List α) (r : List β), mapOption f l = some r →
      List.Forall₂ (fun a b => f a = some b) l r
  | [], r, h => by
      unfold mapOption at h
      injection h with h
      subst h
      exact List.Forall₂.nil
  | a :: l, r, h => by
      unfold mapOption at h
      cases hfa : f a with
      | none => rw [hfa] at h; cases h
      | some b =>
          rw [hfa] at h
          cases hrec : mapOption f l with
          | none => rw [hrec] at h; cases h
          | some r' =>
              rw [hrec] at h
              injection h with h
              subst h
              exact List.Forall₂.cons hfa (mapOption_forall2 f l r' hrec)

theorem mapOption_none_of_mem {α β : Type} (f : α → Option β) :
    ∀ (l : List α) (a : α), a ∈ l → f a = none → mapOption f l = none
  | [], a, h, _ => by simp at h
  | b :: l, a, h, hfa => by
      unfold mapOption
      rcases List.mem_cons.mp h with rfl | hmem
      · rw [hfa]
      · cases hfb : f b with
        | none => rfl
        | some v => rw [mapOption_none_of_mem f l a hmem hfa]; rfl

theorem mapOption_isSome {α β : Type} (f : α → Option β) :
    ∀ (l : List α), (∀ a ∈ l, (f a).isSome = true) → (mapOption f l).isSome = true
  | [], _ => rfl
  | a :: l, h => by
      unfold mapOption
      cases hfa : f a with
      | none =>
          have := h a (by simp)
          rw [hfa] at this
          cases this
      | some b =>
          have ih := mapOption_isSome f l (fun x hx => h x (by simp [hx]))
          cases hrec : mapOption f l with
          | none => rw [hrec] at ih; cases ih
          | some r => rfl

theorem forall2_mem_right {α β : Type} {r : α → β → Prop} :
    ∀ {l₁ : List α} {l₂ : List β}, List.Forall₂ r l₁ l₂ → ∀ b ∈ l₂, ∃ a ∈ l₁, r a b := by
  intro l₁ l₂ h
  induction h with
  | nil => intro b hb; simp at hb
  | cons hab htail ih =>
      intro b hb
      rcases List.mem_cons.mp hb with rfl | hb2
      · exact ⟨_, by simp, hab⟩
      · rcases ih b hb2 with ⟨a, ha, har⟩
        exact ⟨a, by simp [ha], har⟩

theorem normalize_data_length {α : Type} {xs : List α} {n : ℕ} {nd : List α}
    (h : normalize_data xs n = some nd) : nd.length = n := by
  unfold normalize_data at h
  split at h
  case isTrue hlt =>
    cases hgl : xs.getLast? with
    | none => rw [hgl] at h; cases h
    | some x =>
        rw [hgl] at h
        injection h with h
        subst h
        simp [List.length_append, List.length_replicate]
        omega
  case isFalse hge =>
    injection h with h
    subst h
    simp [List.length_take]
    omega

theorem mem_normalize_of_mem_take {α : Type} {xs : List α} {n : ℕ} {nd : List α} {v : α}
    (h : normalize_data xs n = some nd) (hv : v ∈ xs.take n) : v ∈ nd := by
  unfold normalize_data at h
  split at h
  case isTrue hlt =>
    cases hgl : xs.getLast? with
    | none => rw [hgl] at h; cases h
    | some x =>
        rw [hgl] at h
        injection h with h
        subst h
        refine List.mem_append_left _ ?_
        have htake : xs.take n = xs := List.take_of_length_le (le_of_lt hlt)
        rwa [htake] at hv
  case isFalse hge =>
    injection h with h
    subst h
    exact hv

theorem clamp_value_bounds {v : PyVal} {q : ℚ} (h : clamp_value v = some q) :
    0 ≤ q ∧ q ≤ 6 := by
  cases v with
  | num x =>
      unfold clamp_value at h
      injection h with h
      subst h
      exact ⟨le_min (le_max_left 0 x) (by norm_num), min_le_right _ _⟩
  | nonNum s => cases h

theorem processScenario_spec {entries : List (String × PyEntry)} {name : String}
    {d : List ℚ} (h : processScenario entries name = some d) :
    d.length = 100 ∧ ∀ v ∈ d, 0 ≤ v ∧ v ≤ 6 := by
  unfold processScenario at h
  split at h
  · cases h
  · cases h
  · rename_i xs hl
    split at h
    · cases h
    · rename_i nd hn
      unfold clampRange at h
      have hf := mapOption_forall2 clamp_value nd d h
      refine ⟨?_, ?_⟩
      · rw [← hf.length_eq]
        exact normalize_data_length hn
      · intro v hv
        rcases forall2_mem_right hf v hv with ⟨a, _, ha⟩
        exact clamp_value_bounds ha

theorem normalizeAll_spec {entries : List (String × PyEntry)}
    {l : List (String × List ℚ)} (h : normalizeAll entries = some l) :
    ∃ d1 d2 d3 d4,
      processScenario entries "Business as Usual" = some d1 ∧
      processScenario entries "Cut Emissions Aggressively" = some d2 ∧
      processScenario entries "Emissions Removal" = some d3 ∧
      processScenario entries "Climate Interventions" = some d4 ∧
      l = [("Business as Usual", d1), ("Cut Emissions Aggressively", d2),
           ("Emissions Removal", d3), ("Climate Interventions", d4)] := by
  unfold normalizeAll correct_order at h
  have hf := mapOption_forall2 _ _ _ h
  cases hf with
  | cons h1 hf =>
  cases hf with
  | cons h2 hf =>
  cases hf with
  | cons h3 hf =>
  cases hf with
  | cons h4 hf =>
  cases hf
  rcases Option.map_eq_some'.mp h1 with ⟨d1, hd1, hp1⟩
  rcases Option.map_eq_some'.mp h2 with ⟨d2, hd2, hp2⟩
  rcases Option.map_eq_some'.mp h3 with ⟨d3, hd3, hp3⟩
  rcases Option.map_eq_some'.mp h4 with ⟨d4, hd4, hp4⟩
  subst hp1; subst hp2; subst hp3; subst hp4
  exact ⟨d1, d2, d3, d4, hd1, hd2, hd3, hd4, rfl⟩

theorem pairOk_spec {m : List (String × List ℚ)} {a b : String} {u : Unit}
    (h : pairOk m a b = some u) :
    ∃ xa xb la lb, dictGet m a = some xa ∧ dictGet m b = some xb ∧
      xa.getLast? = some la ∧ xb.getLast? = some lb ∧ lb < la := by
  unfold pairOk at h
  split at h
  · rename_i xa xb ha hb
    split at h
    · rename_i la lb hla hlb
      split at h
      · cases h
      · rename_i hnle
        exact ⟨xa, xb, la, lb, ha, hb, hla, hlb, not_le.mp hnle⟩
    · cases h
  · cases h

theorem enforce_spec {m m' : List (String × List ℚ)}
    (h : enforceDescendingOrder m = some m') :
    m' = m ∧
    pairOk m "Business as Usual" "Cut Emissions Aggressively" = some () ∧
    pairOk m "Cut Emissions Aggressively" "Emissions Removal" = some () ∧
    pairOk m "Emissions Removal" "Climate Interventions" = some () := by
  unfold enforceDescendingOrder at h
  cases h1 : pairOk m "Business as Usual" "Cut Emissions Aggressively" with
  | none => rw [h1] at h; cases h
  | some u1 =>
      rw [h1] at h
      cases h2 : pairOk m "Cut Emissions Aggressively" "Emissions Removal" with
      | none => rw [h2] at h; cases h
      | some u2 =>
          rw [h2] at h
          cases h3 : pairOk m "Emissions Removal" "Climate Interventions" with
          | none => rw [h3] at h; cases h
          | some u3 =>
              rw [h3] at h
              injection h with h
              subst h
              cases u1
              cases u2
              cases u3
              exact ⟨rfl, rfl, rfl, rfl⟩

theorem dictGet_first (s1 s2 s3 s4 : List ℚ) :
    dictGet [("Business as Usual", s1), ("Cut Emissions Aggressively", s2),
      ("Emissions Removal", s3), ("Climate Interventions", s4)]
      "Business as Usual" = some s1 := rfl

theorem dictGet_second (s1 s2 s3 s4 : List ℚ) :
    dictGet [("Business as Usual", s1), ("Cut Emissions Aggressively", s2),
      ("Emissions Removal", s3), ("Climate Interventions", s4)]
      "Cut Emissions Aggressively" = some s2 := rfl

theorem dictGet_third (s1 s2 s3 s4 : List ℚ) :
    dictGet [("Business as Usual", s1), ("Cut Emissions Aggressively", s2),
      ("Emissions Removal", s3), ("Climate Interventions", s4)]
      "Emissions Removal" = some s3 := rfl

theorem dictGet_fourth (s1 s2 s3 s4 : List ℚ) :
    dictGet [("Business as Usual", s1), ("Cut Emissions Aggressively", s2),
      ("Emissions Removal", s3), ("Climate Interventions", s4)]
      "Climate Interventions" = some s4 := rfl

theorem getLastD_of_getLast? {l : List ℚ} {a : ℚ} (h : l.getLast? = some a) :
    l.getLastD 0 = a := by
  rw [List.getLastD_eq_getLast?, h]
  rfl

theorem generate_some_spec {resp : Resp} {m : List (String × List ℚ)}
    (h : generate_climate_scenarios resp = some m) :
    (∀ p ∈ m, p.2.length = 100 ∧ ∀ v ∈ p.2, 0 ≤ v ∧ v ≤ 6) ∧
    ∃ s1 s2 s3 s4 : List ℚ,
      m = [("Business as Usual", s1), ("Cut Emissions Aggressively", s2),
           ("Emissions Removal", s3), ("Climate Interventions", s4)] ∧
      s2.getLastD 0 < s1.getLastD 0 ∧ s3.getLastD 0 < s2.getLastD 0 ∧
      s4.getLastD 0 < s3.getLastD 0 := by
  cases resp with
  | parseFailure => cases h
  | nonDict => cases h
  | dict entries =>
      simp only [generate_climate_scenarios] at h
      split at h
      · split at h
        · cases h
        · rename_i normalized hn
          obtain ⟨d1, d2, d3, d4, hp1, hp2, hp3, hp4, rfl⟩ := normalizeAll_spec hn
          obtain ⟨hm, ho1, ho2, ho3⟩ := enforce_spec h
          subst hm
          constructor
          · intro p hp
            simp only [List.mem_cons, List.not_mem_nil, or_false] at hp
            rcases hp with rfl | rfl | rfl | rfl
            · exact processScenario_spec hp1
            · exact processScenario_spec hp2
            · exact processScenario_spec hp3
            · exact processScenario_spec hp4
          · obtain ⟨xa1, xb1, la1, lb1, hga1, hgb1, hla1, hlb1, hlt1⟩ := pairOk_spec ho1
            obtain ⟨xa2, xb2, la2, lb2, hga2, hgb2, hla2, hlb2, hlt2⟩ := pairOk_spec ho2
            obtain ⟨xa3, xb3, la3, lb3, hga3, hgb3, hla3, hlb3, hlt3⟩ := pairOk_spec ho3
            rw [dictGet_first] at hga1
            rw [dictGet_second] at hgb1 hga2
            rw [dictGet_third] at hgb2 hga3
            rw [dictGet_fourth] at hgb3
            injection hga1 with e1; subst e1
            injection hgb1 with e2; subst e2
            injection hga2 with e3; subst e3
            injection hgb2 with e4; subst e4
            injection hga3 with e5; subst e5
            injection hgb3 with e6; subst e6
            refine ⟨d1, d2, d3, d4, rfl, ?_, ?_, ?_⟩
            · rw [getLastD_of_getLast? hla1, getLastD_of_getLast? hlb1]
              exact hlt1
            · rw [getLastD_of_getLast? hla2, getLastD_of_getLast? hlb2]
              exact hlt2
            · rw [getLastD_of_getLast? hla3, getLastD_of_getLast? hlb3]
              exact hlt3
      · cases h

theorem zipWith_sub_nonpos {u l : List ℚ}
    (h : List.Forall₂ (fun a b => a ≤ b) u l) :
    ∀ d ∈ List.zipWith (fun a b => a - b) u l, d ≤ 0 := by
  induction h with
  | nil => intro d hd; simp at hd
  | cons hab htail ih =>
      intro d hd
      rw [List.zipWith_cons_cons] at hd
      rcases List.mem_cons.mp hd with rfl | hd2
      · linarith
      · exact ih d hd2

theorem trapz_nonpos : ∀ (ys xs : List ℚ), (∀ y ∈ ys, y ≤ 0) →
    List.Chain' (fun a b => a ≤ b) xs → trapz ys xs ≤ 0
  | [], xs, _, _ => by cases xs <;> simp [trapz]
  | [y], xs, _, _ => by
      rcases xs with _ | ⟨x0, _ | ⟨x1, t⟩⟩ <;> simp [trapz]
  | y0 :: y1 :: ys, [], _, _ => by simp [trapz]
  | y0 :: y1 :: ys, [x0], _, _ => by simp [trapz]
  | y0 :: y1 :: ys, x0 :: x1 :: xs, hy, hx => by
      rw [trapz]
      have hx01 : x0 ≤ x1 := (List.chain'_cons.mp hx).1
      have ih := trapz_nonpos (y1 :: ys) (x1 :: xs)
        (fun y hmem => hy y (List.mem_cons_of_mem _ hmem)) (List.chain'_cons.mp hx).2
      have h0 := hy y0 (by simp)
      have h1 := hy y1 (by simp)
      have hterm : (y0 + y1) / 2 * (x1 - x0) ≤ 0 :=
        mul_nonpos_iff.mpr (Or.inr ⟨by linarith, by linarith⟩)
      linarith

theorem linspace_chain :
    List.Chain' (fun a b : ℚ => a ≤ b) (linspace 0 100 100) := by
  unfold linspace
  rw [List.chain'_map]
  rw [show (100 : ℕ) = 99 + 1 from rfl, List.chain'_range_succ]
  intro m hm
  push_cast
  gcongr
  linarith

theorem linspace_len : (linspace 0 100 100).length = 100 := by
  simp [linspace]

theorem linspace_headD : (linspace 0 100 100).headD 0 = 0 := by
  unfold linspace
  rw [show (100 : ℕ) = 99 + 1 from rfl, List.range_succ_eq_map]
  simp

theorem linspace_lastD : (linspace 0 100 100).getLastD 0 = 100 := by
  unfold linspace
  rw [show (100 : ℕ) = 99 + 1 from rfl, List.range_succ, List.map_append,
    List.map_singleton, List.getLastD_concat]
  push_cast
  norm_num

theorem trapz_const : ∀ (xs : List ℚ) (c : ℚ),
    trapz (List.replicate xs.length c) xs = c * (xs.getLastD 0 - xs.headD 0)
  | [], c => by simp [trapz]
  | [x], c => by simp [trapz, List.replicate]
  | x0 :: x1 :: rest, c => by
      have ih := trapz_const (x1 :: rest) c
      rw [List.length_cons, List.replicate_succ] at ih
      show trapz (List.replicate (x0 :: x1 :: rest).length c) (x0 :: x1 :: rest) = _
      rw [List.length_cons, List.length_cons, List.replicate_succ, List.replicate_succ,
        trapz, ih]
      simp only [List.getLastD_cons, List.headD_cons]
      ring

theorem zipWith_sub_add_const (k : ℚ) : ∀ l : List ℚ,
    List.zipWith (fun a b => a - b) (l.map (fun v => v + k)) l = List.replicate l.length k
  | [] => rfl
  | x :: l => by
      rw [List.map_cons, List.zipWith_cons_cons, zipWith_sub_add_const k l]
      rw [List.length_cons, List.replicate_succ]
      congr 1
      ring

theorem marketSize_const_offset (lower : List ℚ) (k price : ℚ)
    (hlen : lower.length = 100) (hk : 0 < k) (hp : 0 ≤ price) :
    marketSize (lower.map (fun v => v + k)) lower price =
      k * 100 * price * 1000000000 := by
  unfold marketSize
  rw [zipWith_sub_add_const, hlen]
  rw [show (List.replicate 100 k) = List.replicate (linspace 0 100 100).length k from by
    rw [linspace_len]]
  rw [trapz_const, linspace_lastD, linspace_headD]
  rw [max_eq_right (by positivity)]
  ring

theorem processScenario_none_of_bad {entries : List (String × PyEntry)}
    {name : String} (h : badScenario entries name) :
    processScenario entries name = none := by
  unfold processScenario
  rcases h with h | h | ⟨xs, h, hbad⟩
  · rw [h]
  · rw [h]
  · rw [h]
    show (match normalize_data xs 100 with
          | none => none
          | some nd => clampRange nd) = none
    rcases hbad with rfl | ⟨v, hv, hnv⟩
    · rfl
    · cases hn : normalize_data xs 100 with
      | none => rfl
      | some nd =>
          have hvnd : v ∈ nd := mem_normalize_of_mem_take hn hv
          have hcv : clamp_value v = none := by
            cases v with
            | num q => simp [isNum] at hnv
            | nonNum s => rfl
          have hcr : clampRange nd = none := by
            unfold clampRange
            exact mapOption_none_of_mem _ _ _ hvnd hcv
          exact hcr

/-! Claim theorems. -/

/-- Claim C1: whenever `generate_climate_scenarios` returns a scenario set at
all, each of the four series has exactly 100 elements, every value lies in
`[0, 6]`, and the terminal (index-99) values are strictly descending in
canonical order; every error path returns `None`, so no error path ever
yields a set violating the length or bound invariants. -/
theorem generation_invariants (resp : Resp) (m : List (String × List ℚ))
    (h : generate_climate_scenarios resp = some m) :
    (∀ p ∈ m, p.2.length = 100 ∧ ∀ v ∈ p.2, 0 ≤ v ∧ v ≤ 6) ∧
    ∃ s1 s2 s3 s4 : List ℚ,
      m = [("Business as Usual", s1), ("Cut Emissions Aggressively", s2),
           ("Emissions Removal", s3), ("Climate Interventions", s4)] ∧
      s2.getLastD 0 < s1.getLastD 0 ∧ s3.getLastD 0 < s2.getLastD 0 ∧
      s4.getLastD 0 < s3.getLastD 0 :=
  generate_some_spec h

/-- Witness for C1 at a concrete well-formed payload. -/
theorem generation_invariants_witness :
    (∀ p ∈ goodSet, p.2.length = 100 ∧ ∀ v ∈ p.2, 0 ≤ v ∧ v ≤ 6) ∧
    ∃ s1 s2 s3 s4 : List ℚ,
      goodSet = [("Business as Usual", s1), ("Cut Emissions Aggressively", s2),
           ("Emissions Removal", s3), ("Climate Interventions", s4)] ∧
      s2.getLastD 0 < s1.getLastD 0 ∧ s3.getLastD 0 < s2.getLastD 0 ∧
      s4.getLastD 0 < s3.getLastD 0 :=
  generation_invariants (Resp.dict goodEntries) goodSet (by decide)

/-- Counterexample to claim C2: on a payload whose terminal values ascend
(1, 2, 3, 4), violating the descending-order intent, the generation pass does
not rescale the offending series and succeed — it aborts and returns `None`. -/
theorem ordering_violation_cex :
    normalizeAll ascEntries = some ascNormalized ∧
    generate_climate_scenarios (Resp.dict ascEntries) = none :=
  ⟨by decide, by decide⟩

/-- Claim C2 (amended): when some adjacent pair `(a, b)` in canonical order
has `a.last <= b.last` after normalization, the generation pass performs no
rescaling: the violation is fatal, the pass raises, and the caller receives
`None`. -/
theorem ordering_violation_aborts (entries : List (String × PyEntry))
    (normalized : List (String × List ℚ)) (a b : String) (sa sb : List ℚ)
    (la lb : ℚ) (hn : normalizeAll entries = some normalized)
    (hadj : canonicalAdjacent a b)
    (hsa : dictGet normalized a = some sa) (hsb : dictGet normalized b = some sb)
    (hla : sa.getLast? = some la) (hlb : sb.getLast? = some lb) (hle : la ≤ lb) :
    generate_climate_scenarios (Resp.dict entries) = none := by
  simp only [generate_climate_scenarios]
  split
  · rw [hn]
    show enforceDescendingOrder normalized = none
    cases he : enforceDescendingOrder normalized with
    | none => rfl
    | some m' =>
        exfalso
        obtain ⟨-, h1, h2, h3⟩ := enforce_spec he
        have hsome : pairOk normalized a b = some () := by
          rcases hadj with ⟨rfl, rfl⟩ | ⟨rfl, rfl⟩ | ⟨rfl, rfl⟩
          · exact h1
          · exact h2
          · exact h3
        obtain ⟨xa, xb, la2, lb2, hga, hgb, hla2, hlb2, hlt⟩ := pairOk_spec hsome
        rw [hsa] at hga
        injection hga with e1
        subst e1
        rw [hsb] at hgb
        injection hgb with e2
        subst e2
        rw [hla] at hla2
        injection hla2 with e3
        subst e3
        rw [hlb] at hlb2
        injection hlb2 with e4
        subst e4
        exact absurd hle (not_le.mpr hlt)
  · rfl

/-- Witness for amended C2: a payload whose adjacent terminal values are equal
(the boundary case of the violation) makes the pass return `None`. -/
theorem ordering_violation_aborts_witness :
    generate_climate_scenarios (Resp.dict eqEntries) = none :=
  ordering_violation_aborts eqEntries eqNormalized "Business as Usual"
    "Cut Emissions Aggressively" (List.replicate 100 2) (List.replicate 100 2)
    2 2 (by decide) (Or.inl ⟨rfl, rfl⟩) (by decide) (by decide) (by decide)
    (by decide) (le_refl 2)

/-- Counterexample to claim C3: with `upper` uniformly 1 above `lower`,
`price = 1` and `N = 100`, the code returns `1 * 100 * 1 * 1e9`, because the
integration axis is `np.linspace(0, 100, 100)` (span 100, spacing 100/99),
not unit index spacing; the claimed exact value `k * (N-1) * price * 1e9`
is therefore wrong. -/
theorem marketSize_axis_cex :
    marketSize ((List.replicate 100 (0 : ℚ)).map (fun v => v + 1))
      (List.replicate 100 0) 1 = 1 * 100 * 1 * 1000000000 ∧
    (1 * 100 * 1 * 1000000000 : ℚ) ≠ 1 * (100 - 1) * 1 * 1000000000 :=
  ⟨marketSize_const_offset (List.replicate 100 0) 1 1 (by simp) (by norm_num)
      (by norm_num),
   by norm_num⟩

/-- Claim C3 (amended): for nonnegative prices (the UI admits only
`co2_price >= 0`), `marketSize` returns 0 whenever `upper[t] <= lower[t]`
pointwise; when `upper` is uniformly `k > 0` above `lower` (length 100), it
returns exactly `k * 100 * price * 1e9` — positive and proportional to
`price` — since the integration axis is `linspace(0, 100, 100)` (span 100),
not unit index spacing. -/
theorem marketSize_spec :
    (∀ (upper lower : List ℚ) (price : ℚ), 0 ≤ price →
      List.Forall₂ (fun a b => a ≤ b) upper lower →
      marketSize upper lower price = 0) ∧
    (∀ (lower : List ℚ) (k price : ℚ), lower.length = 100 → 0 < k → 0 ≤ price →
      marketSize (lower.map (fun v => v + k)) lower price =
        k * 100 * price * 1000000000) := by
  constructor
  · intro upper lower price hp hle
    unfold marketSize
    have ht : trapz (List.zipWith (fun a b => a - b) upper lower)
        (linspace 0 100 100) ≤ 0 :=
      trapz_nonpos _ _ (zipWith_sub_nonpos hle) linspace_chain
    have hmul : trapz (List.zipWith (fun a b => a - b) upper lower)
        (linspace 0 100 100) * price * 1000000000 ≤ 0 :=
      mul_nonpos_iff.mpr (Or.inr ⟨mul_nonpos_iff.mpr (Or.inr ⟨ht, hp⟩), by norm_num⟩)
    exact max_eq_left hmul
  · exact marketSize_const_offset

/-- Witness for amended C3 at concrete series and prices. -/
theorem marketSize_spec_witness :
    marketSize [(0 : ℚ), 0] [(1 : ℚ), 2] 5 = 0 ∧
    marketSize ((List.replicate 100 (0 : ℚ)).map (fun v => v + 2))
      (List.replicate 100 0) 5 = 2 * 100 * 5 * 1000000000 :=
  ⟨marketSize_spec.1 [0, 0] [1, 2] 5 (by norm_num)
      (List.Forall₂.cons (by norm_num)
        (List.Forall₂.cons (by norm_num) List.Forall₂.nil)),
   marketSize_spec.2 (List.replicate 100 0) 2 5 (by simp) (by norm_num) (by norm_num)⟩

/-- Counterexample to claim C4: on the empty series `normalize_data` fails
(`data[-1]` raises `IndexError`), so it does not return an `N`-element series
for every input series. -/
theorem normalizeLength_empty_cex : normalize_data ([] : List ℚ) 100 = none := rfl

/-- Claim C4 (amended): for every NON-EMPTY input series, `normalize_data`
returns a series of exactly `N` elements — the first `N` preserved when the
input is at least that long, and padded by repeating the last original
element when shorter; the empty series instead raises. -/
theorem normalizeLength_spec {α : Type} (xs : List α) (n : ℕ) (hne : xs ≠ []) :
    ∃ ys last, xs.getLast? = some last ∧ normalize_data xs n = some ys ∧
      ys.length = n ∧ (n ≤ xs.length → ys = xs.take n) ∧
      (xs.length < n → ys = xs ++ List.replicate (n - xs.length) last) := by
  obtain ⟨last, hlast⟩ := Option.isSome_iff_exists.mp (List.getLast?_isSome.mpr hne)
  unfold normalize_data
  by_cases hlt : xs.length < n
  · rw [if_pos hlt, hlast]
    refine ⟨_, last, rfl, rfl, ?_, ?_, fun _ => rfl⟩
    · simp [List.length_append, List.length_replicate]
      omega
    · intro hge
      exact absurd hge (by omega)
  · rw [if_neg hlt]
    refine ⟨xs.take n, last, hlast, rfl, ?_, fun _ => rfl, ?_⟩
    · simp [List.length_take]
      omega
    · intro hc
      exact absurd hc hlt

/-- Witness for amended C4: a 2-element series padded to length 5. -/
theorem normalizeLength_spec_witness :
    ∃ ys last, ([(1 : ℚ), 2].getLast? = some last) ∧
      normalize_data [(1 : ℚ), 2] 5 = some ys ∧ ys.length = 5 ∧
      (5 ≤ [(1 : ℚ), 2].length → ys = [(1 : ℚ), 2].take 5) ∧
      ([(1 : ℚ), 2].length < 5 →
        ys = [(1 : ℚ), 2] ++ List.replicate (5 - [(1 : ℚ), 2].length) last) :=
  normalizeLength_spec [(1 : ℚ), 2] 5 (by simp)

/-- Counterexample to claim C5: `generate_climate_scenarios` accepts a set
whose Business-as-Usual series starts at 0, strictly below the
Cut-Emissions-Aggressively series at index 0, because only the terminal
values are checked — the pointwise ordering claim fails at index 0. -/
theorem pointwise_order_cex :
    generate_climate_scenarios (Resp.dict crossEntries) = some crossSet ∧
    dictGet crossSet "Business as Usual" = some ((0 : ℚ) :: List.replicate 99 4) ∧
    dictGet crossSet "Cut Emissions Aggressively" =
      some (List.replicate 100 (3 : ℚ)) ∧
    ((0 : ℚ) :: List.replicate 99 (4 : ℚ)).getD 0 0 <
      (List.replicate 100 (3 : ℚ)).getD 0 0 :=
  ⟨by decide, by decide, by decide, by decide⟩

/-- Claim C5 (amended): every set produced by the pipeline satisfies the
scenario ordering at the TERMINAL index only — the strictly descending chain
holds at index 99, while no ordering is guaranteed at interior indices. -/
theorem terminal_descending (resp : Resp) (m : List (String × List ℚ))
    (h : generate_climate_scenarios resp = some m) :
    ∃ s1 s2 s3 s4 : List ℚ,
      m = [("Business as Usual", s1), ("Cut Emissions Aggressively", s2),
           ("Emissions Removal", s3), ("Climate Interventions", s4)] ∧
      s2.getLastD 0 < s1.getLastD 0 ∧ s3.getLastD 0 < s2.getLastD 0 ∧
      s4.getLastD 0 < s3.getLastD 0 :=
  (generate_some_spec h).2

/-- Witness for amended C5 at a concrete payload. -/
theorem terminal_descending_witness :
    ∃ s1 s2 s3 s4 : List ℚ,
      steppedSet = [("Business as Usual", s1), ("Cut Emissions Aggressively", s2),
           ("Emissions Removal", s3), ("Climate Interventions", s4)] ∧
      s2.getLastD 0 < s1.getLastD 0 ∧ s3.getLastD 0 < s2.getLastD 0 ∧
      s4.getLastD 0 < s3.getLastD 0 :=
  terminal_descending (Resp.dict steppedEntries) steppedSet (by decide)

/-- Counterexample to claim C6: a payload carrying a non-numeric element (at
index 100 of the Business-as-Usual list, just past the truncation point of
`normalize_data`) is structurally invalid per the claim, yet the pass accepts
it and returns a full scenario set instead of `None`. -/
theorem invalid_payload_cex :
    PyVal.nonNum "N/A" ∈
      (List.replicate 100 (PyVal.num 4) ++ [PyVal.nonNum "N/A"]) ∧
    generate_climate_scenarios (Resp.dict truncEntries) = some truncSet :=
  ⟨by decide, by decide⟩

/-- Claim C6 (amended): for every structurally invalid payload — unparsable,
not a dict, wrong key count, an unresolvable scenario name, a non-list value,
an empty list, or a non-numeric element among the elements that survive
length normalization — the pass reports the error and returns `None`, never
a partial set; non-numeric elements past the truncation point are silently
dropped instead. -/
theorem invalid_payload_rejected (resp : Resp) (h : invalidResp resp) :
    generate_climate_scenarios resp = none := by
  rcases h with rfl | rfl | ⟨entries, rfl, h⟩
  · rfl
  · rfl
  · simp only [generate_climate_scenarios]
    rcases h with hlen | ⟨name, hmem, hbad⟩
    · rw [if_neg hlen]
    · split
      · have hnone : normalizeAll entries = none := by
          unfold normalizeAll
          apply mapOption_none_of_mem _ _ name hmem
          rw [processScenario_none_of_bad hbad]
          rfl
        rw [hnone]
      · rfl

/-- Witness for amended C6: an unparsable response yields `None`. -/
theorem invalid_payload_rejected_witness :
    generate_climate_scenarios Resp.parseFailure = none :=
  invalid_payload_rejected Resp.parseFailure (Or.inl rfl)

/-- Counterexample to claim C7: `normalize_data` is not total — it fails on
the empty series. -/
theorem normalize_total_cex :
    (normalize_data ([] : List PyVal) 100).isSome = false := rfl

/-- Claim C7 (amended): the clamping pass is pure and total on every numeric
series, including the empty one; `normalize_data` is pure and returns a
result on every NON-EMPTY series (for any target length), but fails on the
empty series. -/
theorem pure_total_normalizer :
    (∀ xs : List PyVal, (∀ v ∈ xs, isNum v = true) → (clampRange xs).isSome = true) ∧
    (∀ (α : Type) (xs : List α) (n : ℕ), xs ≠ [] →
      (normalize_data xs n).isSome = true) := by
  constructor
  · intro xs h
    unfold clampRange
    apply mapOption_isSome
    intro a ha
    cases a with
    | num q => rfl
    | nonNum s => exact absurd (h _ ha) (by simp [isNum])
  · intro α xs n hne
    unfold normalize_data
    split
    · obtain ⟨last, hlast⟩ :=
        Option.isSome_iff_exists.mp (List.getLast?_isSome.mpr hne)
      rw [hlast]
      rfl
    · rfl

/-- Witness for amended C7 at concrete series. -/
theorem pure_total_normalizer_witness :
    (clampRange [PyVal.num 3]).isSome = true ∧
    (normalize_data [(1 : ℚ)] 100).isSome = true :=
  ⟨pure_total_normalizer.1 [PyVal.num 3] (by decide),
   pure_total_normalizer.2 ℚ [(1 : ℚ)] 100 (by simp)⟩

/-- Counterexample to claim C8: key matching is case-SENSITIVE — a key
differing from the canonical name only in letter case is not resolved, and
the generation pass aborts with the missing-scenario error instead of
resolving it. -/
theorem case_sensitive_match_cex :
    matchScenarioKey ["business as usual"] "Business as Usual" = none ∧
    generate_climate_scenarios (Resp.dict lowercaseEntries) = none :=
  ⟨by decide, by decide⟩

/-- Claim C8 (amended): `matchScenarioKey` resolves a key whenever some
candidate contains the canonical name as a CASE-SENSITIVE substring, and the
resolved key itself contains the name; case-insensitive containment is not
supported. -/
theorem matchScenarioKey_substring (keys : List String) (name key : String)
    (hmem : key ∈ keys) (hc : strContains key name = true) :
    ∃ k, matchScenarioKey keys name = some k ∧ strContains k name = true := by
  have hs : (keys.find? (fun k => strContains k name)).isSome = true := by
    rw [List.find?_isSome]
    exact ⟨key, hmem, hc⟩
  obtain ⟨k, hk⟩ := Option.isSome_iff_exists.mp hs
  have hp := List.find?_some hk
  exact ⟨k, hk, by simpa using hp⟩

/-- Witness for amended C8 at a concrete key list. -/
theorem matchScenarioKey_substring_witness :
    ∃ k, matchScenarioKey ["Other", "My Business as Usual plan"]
        "Business as Usual" = some k ∧
      strContains k "Business as Usual" = true :=
  matchScenarioKey_substring ["Other", "My Business as Usual plan"]
    "Business as Usual" "My Business as Usual plan" (by decide) (by decide)

/-- Claim C9: the terminal-order pass is idempotent — whenever it succeeds it
returns the set unchanged, so applying it twice yields the same result as
applying it once, and once the terminal-order invariant holds a second
application changes nothing. -/
theorem enforceDescendingOrder_idempotent (m m' : List (String × List ℚ))
    (h : enforceDescendingOrder m = some m') :
    m' = m ∧ enforceDescendingOrder m' = some m' := by
  obtain ⟨heq, h1, h2, h3⟩ := enforce_spec h
  subst heq
  refine ⟨rfl, ?_⟩
  simp only [enforceDescendingOrder, h1, h2, h3]

/-- Witness for C9 at a concrete strictly ordered set. -/
theorem enforceDescendingOrder_idempotent_witness :
    orderedSet = orderedSet ∧ enforceDescendingOrder orderedSet = some orderedSet :=
  enforceDescendingOrder_idempotent orderedSet orderedSet (by decide)

/-- Claim C10: whenever the generation pass succeeds, the returned mapping's
keys are exactly the four canonical scenario names in canonical order,
regardless of the spelling or ordering of the payload's keys. -/
theorem canonical_keys (resp : Resp) (m : List (String × List ℚ))
    (h : generate_climate_scenarios resp = some m) :
    m.map Prod.fst = correct_order := by
  obtain ⟨-, s1, s2, s3, s4, rfl, -, -, -⟩ := generate_some_spec h
  rfl

/-- Witness for C10: decorated keys are re-keyed to the canonical names. -/
theorem canonical_keys_witness : decoratedSet.map Prod.fst = correct_order :=
  canonical_keys (Resp.dict decoratedEntries) decoratedSet (by decide)
